import Mathlib

/-!
Verification development for the drive-by-wire node
`src/ros/src/twist_controller/dbw_node.py`.

The node is embedded shallowly:

* Plane points are pairs of reals; machine floats are modelled by exact
  real arithmetic.
* `numpy.arctan2 y x` is modelled as the argument of the complex number
  `x + y i` (same branch cut and the same value `0` at the origin).
* `numpy.polyfit xs ys 2` is modelled by the unique least-squares
  solution of the degree-2 Vandermonde system, computed from the normal
  equations by the rule of Cramer; it agrees with the least-squares fit
  whenever the normal matrix is nonsingular.
* The mutable attributes of the `DBWNode` object form a state record;
  every ROS callback is a state transformer, and one iteration of
  `DBWNode.loop` is the function `tick`, whose result records what the
  iteration published, whether it slept, and whether it raised an
  uncaught Python exception (`Except.error`).
* The `Controller.control` collaborator is an opaque parameter of
  `tick`, exactly as the specification treats it (contract only).
-/

noncomputable section

namespace DBWNode

/-- The message type `std_msgs/Bool`: one boolean field `data`. -/
structure BoolMsg where
  data : Bool

/-- Python truthiness of the attribute `self.dbw_enabled`.  The callback
stores the whole message object (line 118 of the source).  A genpy
message object defines neither a boolean conversion nor a length, so
once any message has arrived the attribute is truthy regardless of the
value of its `data` field; only the initial `None` is falsy. -/
def pyTruthy : Option BoolMsg → Bool
  | none => false
  | some _ => true

/-- Pedal command discriminator for `dbw_mkz_msgs/ThrottleCmd`. -/
inductive ThrottleCmdType
  | CMD_NONE
  | CMD_PEDAL
  | CMD_PERCENT

/-- Pedal command discriminator for `dbw_mkz_msgs/BrakeCmd`. -/
inductive BrakeCmdType
  | CMD_NONE
  | CMD_PEDAL
  | CMD_PERCENT
  | CMD_TORQUE

/-- Outgoing throttle command message (fields set in `publish`). -/
structure ThrottleCmdMsg where
  enable : Bool
  pedal_cmd_type : ThrottleCmdType
  pedal_cmd : ℝ

/-- Outgoing steering command message (fields set in `publish`). -/
structure SteeringCmdMsg where
  enable : Bool
  steering_wheel_angle_cmd : ℝ

/-- Outgoing brake command message (fields set in `publish`). -/
structure BrakeCmdMsg where
  enable : Bool
  pedal_cmd_type : BrakeCmdType
  pedal_cmd : ℝ

/-- The three actuation commands one call of `DBWNode.publish` emits. -/
structure CmdTriple where
  throttle : ThrottleCmdMsg
  steering : SteeringCmdMsg
  brake : BrakeCmdMsg

/-- `DBWNode.publish` (source lines 164-180): packages the throttle,
brake and steer values into three always-enabled commands, throttle as
percentage, brake as torque. -/
def publish (throttle brake steer : ℝ) : CmdTriple where
  throttle := { enable := true, pedal_cmd_type := ThrottleCmdType.CMD_PERCENT,
                pedal_cmd := throttle }
  steering := { enable := true, steering_wheel_angle_cmd := steer }
  brake := { enable := true, pedal_cmd_type := BrakeCmdType.CMD_TORQUE,
             pedal_cmd := brake }

/-- `publish` applied to the result triple `(throttle, brake, steering)`
of `Controller.control`, as unpacked on source lines 109-114. -/
def publishTriple (tbs : ℝ × ℝ × ℝ) : CmdTriple :=
  publish tbs.1 tbs.2.1 tbs.2.2

/-- The mutable attributes of the `DBWNode` object that the loop and the
callbacks touch (source lines 86-93).  `none` is Python `None`. -/
structure DBWState where
  current_velocity : Option ℝ
  current_ang_velocity : Option ℝ
  dbw_enabled : Option BoolMsg
  linear_velocity : Option ℝ
  angular_velocity : Option ℝ
  current_position : Option (ℝ × ℝ)
  waypoints : Option (List (ℝ × ℝ))

/-- The state right after `__init__` lines 86-93: every field `None`. -/
def initState : DBWState where
  current_velocity := none
  current_ang_velocity := none
  dbw_enabled := none
  linear_velocity := none
  angular_velocity := none
  current_position := none
  waypoints := none

/-- `DBWNode.dbw_enabled_cb` (lines 117-118): stores the message object
itself, not its `data` field. -/
def dbw_enabled_cb (s : DBWState) (msg : BoolMsg) : DBWState :=
  { s with dbw_enabled := some msg }

/-- `DBWNode.velocity_cb` (lines 124-125). -/
def velocity_cb (s : DBWState) (v : ℝ) : DBWState :=
  { s with current_velocity := some v }

/-- `DBWNode.pose_cb` (lines 127-128). -/
def pose_cb (s : DBWState) (x y : ℝ) : DBWState :=
  { s with current_position := some (x, y) }

/-- `DBWNode.waypoints_cb` (lines 130-131): the waypoints are kept as
their ground-plane positions, the only part `calculate_cte` reads. -/
def waypoints_cb (s : DBWState) (ws : List (ℝ × ℝ)) : DBWState :=
  { s with waypoints := some ws }

/-- One elementary store performed by `twist_cb`.  The callback body is
two separate attribute assignments (lines 121 and 122) with no lock, so
each assignment is its own atomic step and the loop thread may read the
state between them. -/
inductive TwistWrite
  | wLinear (v : ℝ)
  | wAngular (v : ℝ)

/-- Effect of one elementary store of `twist_cb` on the state. -/
def applyTwistWrite (s : DBWState) : TwistWrite → DBWState
  | TwistWrite.wLinear v => { s with linear_velocity := some v }
  | TwistWrite.wAngular v => { s with angular_velocity := some v }

/-- The store sequence of `DBWNode.twist_cb` (lines 120-122): first
`self.linear_velocity`, then `self.angular_velocity`. -/
def twistWrites (lin ang : ℝ) : List TwistWrite :=
  [TwistWrite.wLinear lin, TwistWrite.wAngular ang]

/-- `DBWNode.twist_cb` run to completion: both stores performed in
source order. -/
def twist_cb (s : DBWState) (lin ang : ℝ) : DBWState :=
  (twistWrites lin ang).foldl applyTwistWrite s

/-- 3x3 determinant, rows listed left to right, top to bottom. -/
def det3 (a b c d e f g h i : ℝ) : ℝ :=
  a * (e * i - f * h) - b * (d * i - f * g) + c * (d * h - e * g)

/-- Model of `np.polyfit xs ys 2`: the least-squares coefficients
`(c2, c1, c0)` (highest degree first) of the degree-2 Vandermonde
system, obtained by solving the normal equations with the rule of
Cramer.  Whenever the normal matrix is nonsingular this is the unique
least-squares solution, hence the value numpy computes. -/
def polyfit2 (xs ys : List ℝ) : ℝ × ℝ × ℝ :=
  let S0 : ℝ := (xs.length : ℝ)
  let S1 := xs.sum
  let S2 := (xs.map fun x => x ^ 2).sum
  let S3 := (xs.map fun x => x ^ 3).sum
  let S4 := (xs.map fun x => x ^ 4).sum
  let T0 := ys.sum
  let T1 := (List.zipWith (fun x y => x * y) xs ys).sum
  let T2 := (List.zipWith (fun x y => x ^ 2 * y) xs ys).sum
  let D := det3 S4 S3 S2 S3 S2 S1 S2 S1 S0
  (det3 T2 S3 S2 T1 S2 S1 T0 S1 S0 / D,
   det3 S4 T2 S2 S3 T1 S1 S2 T0 S0 / D,
   det3 S4 S3 T2 S3 S2 T1 S2 S1 T0 / D)

/-- `np.polyval` for the degree-2 coefficient triple, highest first. -/
def polyval (c : ℝ × ℝ × ℝ) (x : ℝ) : ℝ :=
  c.1 * x ^ 2 + c.2.1 * x + c.2.2

/-- Sum of squared residuals of a degree-2 coefficient triple on paired
abscissae and ordinates: the objective `np.polyfit` minimises. -/
def sse (c : ℝ × ℝ × ℝ) (xs ys : List ℝ) : ℝ :=
  (List.zipWith (fun x y => (y - polyval c x) ^ 2) xs ys).sum

/-- `np.arctan2 y x`, modelled as the argument of `x + y i`; the value
at the origin is `0`, as in numpy. -/
def atan2 (y x : ℝ) : ℝ :=
  Complex.arg ⟨x, y⟩

/-- A row vector times the rotation matrix
`[[cos a, -sin a], [sin a, cos a]]`, i.e. one row of
`np.dot positions rotation` on source lines 147-151 and 155, with
`c = cos a` and `s = sin a`. -/
def rotApply (c s : ℝ) (q : ℝ × ℝ) : ℝ × ℝ :=
  (q.1 * c + q.2 * s, q.1 * (-s) + q.2 * c)

/-- The lookahead offset of `calculate_cte` (source line 145). -/
def LOOKAHEAD : ℕ := 10

/-- `DBWNode.calculate_cte` (lines 133-162) on the waypoint positions
and the current position, in exact real arithmetic.  Only meaningful
when the waypoint list has more than `LOOKAHEAD` entries; the raising
behaviour on shorter lists is modelled by `calcCTE?`. -/
def calculate_cte (waypoints : List (ℝ × ℝ)) (current_position : ℝ × ℝ) : ℝ :=
  let origin := waypoints.headI
  let positions := waypoints.map fun p => (p.1 - origin.1, p.2 - origin.2)
  let look := positions.getD LOOKAHEAD (0, 0)
  let angle := atan2 look.2 look.1
  let c := Real.cos angle
  let s := Real.sin angle
  let rotatedPositions := positions.map (rotApply c s)
  let translated := (current_position.1 - origin.1, current_position.2 - origin.2)
  let rotated := rotApply c s translated
  let coefficients := polyfit2 (rotatedPositions.map Prod.fst)
      (rotatedPositions.map Prod.snd)
  let expected := polyval coefficients rotated.1
  let actual := rotated.2
  actual - expected

/-- An uncaught Python exception escaping the loop body. -/
inductive PyError
  | indexError

/-- `calculate_cte` as actually called: `positions[offset, 1]` on line
146 raises `IndexError` when the waypoint list has at most `LOOKAHEAD`
entries (this also covers the empty list, which already fails at
`positions[0]`); there is no try/except anywhere on the call path. -/
def calcCTE? (waypoints : List (ℝ × ℝ)) (pos : ℝ × ℝ) : Except PyError ℝ :=
  if LOOKAHEAD < waypoints.length then
    Except.ok (calculate_cte waypoints pos)
  else
    Except.error PyError.indexError

/-- The gate condition of the loop (source lines 100-103):
`self.dbw_enabled and None not in (current_velocity, linear_velocity,
angular_velocity)`.  Note the first conjunct is Python truthiness of the
stored message object, see `pyTruthy`. -/
def gate (s : DBWState) : Bool :=
  pyTruthy s.dbw_enabled && s.current_velocity.isSome &&
    s.linear_velocity.isSome && s.angular_velocity.isSome

/-- The observable outcome of one loop iteration. -/
structure TickEffects where
  ctePub : Option ℝ
  commands : Option CmdTriple
  slept : Bool

/-- One iteration of the body of `DBWNode.loop` (source lines 99-115),
parametrised by the opaque collaborator `Controller.control`.

* Outer match: the gate of lines 100-103.
* Inner match: the presence check of line 105; when pose and waypoints
  are both present the CTE is computed (line 106) and published
  (line 107); an `IndexError` raised inside `calculate_cte` aborts the
  iteration uncaught.
* The controller is invoked (lines 109-113) with the fallback CTE `0`
  when pose or waypoints were absent, and its triple is forwarded to
  `publish` (line 114).
* `rate.sleep()` (line 115) runs only inside the gated branch. -/
def tick (control : ℝ → ℝ → ℝ → ℝ → ℝ × ℝ × ℝ) (s : DBWState) :
    Except PyError TickEffects :=
  match s.dbw_enabled, s.current_velocity, s.linear_velocity, s.angular_velocity with
  | some _, some cv, some lv, some av =>
    match s.current_position, s.waypoints with
    | some pos, some ws =>
      match calcCTE? ws pos with
      | Except.error e => Except.error e
      | Except.ok cte =>
        Except.ok { ctePub := some cte,
                    commands := some (publishTriple (control cv lv av cte)),
                    slept := true }
    | _, _ =>
      Except.ok { ctePub := none,
                  commands := some (publishTriple (control cv lv av 0)),
                  slept := true }
  | _, _, _, _ =>
    Except.ok { ctePub := none, commands := none, slept := false }

/-- Rotation of a plane point by the angle `a`, counterclockwise.  Used
by `cte_spec` below to express the specification step `rotate by minus
the heading`. -/
def rotateBy (a : ℝ) (q : ℝ × ℝ) : ℝ × ℝ :=
  (q.1 * Real.cos a - q.2 * Real.sin a, q.1 * Real.sin a + q.2 * Real.cos a)

/-- The CTE computation exactly as the specification words it
(section 4.2, steps 1-7): translate all path points so point 0 is the
origin; heading = atan2 of the translated point at index 10; rotate all
translated points by minus that heading; least-squares-fit a degree-2
polynomial to the rotated points; apply the same translation and
rotation to the pose; return the transformed pose y minus the
polynomial at the transformed pose x.  This is the one definition that
follows the words of the specification, written to be compared with
`calculate_cte`, which is translated from the source. -/
def cte_spec (path : List (ℝ × ℝ)) (pose : ℝ × ℝ) : ℝ :=
  let origin := path.headI
  let translated := path.map fun p => (p.1 - origin.1, p.2 - origin.2)
  let lookahead := translated.getD LOOKAHEAD (0, 0)
  let heading := atan2 lookahead.2 lookahead.1
  let aligned := translated.map (rotateBy (-heading))
  let tpose := rotateBy (-heading) (pose.1 - origin.1, pose.2 - origin.2)
  let coeffs := polyfit2 (aligned.map Prod.fst) (aligned.map Prod.snd)
  tpose.2 - polyval coeffs tpose.1

/-- A rigid transform of the plane: rotation by the orthogonal matrix
`[[a, -b], [b, a]]` (a point on the unit circle, `a ^ 2 + b ^ 2 = 1`)
composed with the translation `(t1, t2)`. -/
def rigidMap (a b t1 t2 : ℝ) (p : ℝ × ℝ) : ℝ × ℝ :=
  (a * p.1 - b * p.2 + t1, b * p.1 + a * p.2 + t2)

/-- The linear (rotation-only) part of `rigidMap`. -/
def linRot (a b : ℝ) (q : ℝ × ℝ) : ℝ × ℝ :=
  (a * q.1 - b * q.2, b * q.1 + a * q.2)

/-- The tail of `calculate_cte` after the initial translation step:
frame angle from the lookahead entry, frame rotation, degree-2 fit and
residual (source lines 144-162).  `calculate_cte` is definitionally
this core applied to the translated waypoint positions and the
translated pose; see `calculate_cte_eq_core`. -/
def cteCore (positions : List (ℝ × ℝ)) (translated : ℝ × ℝ) : ℝ :=
  let look := positions.getD LOOKAHEAD (0, 0)
  let angle := atan2 look.2 look.1
  let c := Real.cos angle
  let s := Real.sin angle
  let rotatedPositions := positions.map (rotApply c s)
  let rotated := rotApply c s translated
  let coefficients := polyfit2 (rotatedPositions.map Prod.fst)
      (rotatedPositions.map Prod.snd)
  let expected := polyval coefficients rotated.1
  let actual := rotated.2
  actual - expected

/-- C1: claimed, actuation commands are published only when the enable
signal is true, and toggling the enable flag from true to false stops
publication on the next tick.  The code stores the whole message object
in `dbw_enabled_cb`, so the gate tests Python truthiness of a message
object, which is true for every received message; after a message with
`data := false` arrives, the next tick still publishes actuation. -/
theorem tick_publishes_after_disable_toggle
    (control : ℝ → ℝ → ℝ → ℝ → ℝ × ℝ × ℝ) :
    tick control
        { current_velocity := some 1, current_ang_velocity := none,
          dbw_enabled := some { data := true }, linear_velocity := some 2,
          angular_velocity := some 0, current_position := none,
          waypoints := none }
      = Except.ok { ctePub := none,
                    commands := some (publishTriple (control 1 2 0 0)),
                    slept := true } ∧
    tick control
        (dbw_enabled_cb
          { current_velocity := some 1, current_ang_velocity := none,
            dbw_enabled := some { data := true }, linear_velocity := some 2,
            angular_velocity := some 0, current_position := none,
            waypoints := none }
          { data := false })
      = Except.ok { ctePub := none,
                    commands := some (publishTriple (control 1 2 0 0)),
                    slept := true } :=
  ⟨rfl, rfl⟩

/-- C2: claimed, a CTE computation on a path of fewer than 11 points
fails only locally and the tick proceeds with fallback CTE 0.  In the
code there is no exception handler on the call path of `calculate_cte`,
so the `IndexError` raised by `positions[10]` on a 3-point path escapes
the loop body uncaught and the iteration produces nothing. -/
theorem tick_crashes_on_short_path
    (control : ℝ → ℝ → ℝ → ℝ → ℝ × ℝ × ℝ) :
    tick control
        { current_velocity := some 5, current_ang_velocity := none,
          dbw_enabled := some { data := true }, linear_velocity := some 5,
          angular_velocity := some 0, current_position := some (1, 1),
          waypoints := some [(0, 0), (1, 0), (2, 0)] }
      = Except.error PyError.indexError :=
  rfl

/-- C3: claimed, the fixed tick-period enforcement applies on every
iteration of the loop, independent of the gate.  In the code
`rate.sleep()` sits inside the gated branch: an iteration with the gate
inactive (here the initial state, no inputs yet) performs no sleep at
all, so the loop busy-spins while disabled. -/
theorem tick_no_sleep_when_gate_inactive
    (control : ℝ → ℝ → ℝ → ℝ → ℝ × ℝ × ℝ) :
    gate initState = false ∧
    tick control initState
      = Except.ok { ctePub := none, commands := none, slept := false } :=
  ⟨rfl, rfl⟩

/-- C9: claimed, the two fields of the motion request are always
updated together as one atomic pair, so a concurrent reader never
observes a torn state.  The callback body is two separate unguarded
attribute assignments; after the first assignment of a second call
`twist_cb (3, 4)` following a completed `twist_cb (1, 2)`, the state
carries the pair `(some 3, some 2)`, which mixes the newer linear value
with the older angular value and differs from the pair left by either
completed write. -/
theorem twist_cb_torn_read :
    twist_cb (twist_cb initState 1 2) 3 4
      = applyTwistWrite
          (applyTwistWrite (twist_cb initState 1 2) (TwistWrite.wLinear 3))
          (TwistWrite.wAngular 4) ∧
    ((applyTwistWrite (twist_cb initState 1 2)
        (TwistWrite.wLinear 3)).linear_velocity,
     (applyTwistWrite (twist_cb initState 1 2)
        (TwistWrite.wLinear 3)).angular_velocity)
      = (some 3, some 2) ∧
    ((twist_cb initState 1 2).linear_velocity,
     (twist_cb initState 1 2).angular_velocity) = (some 1, some 2) ∧
    ((twist_cb (twist_cb initState 1 2) 3 4).linear_velocity,
     (twist_cb (twist_cb initState 1 2) 3 4).angular_velocity)
      = (some 3, some 4) ∧
    ((some 3, some 2) : Option ℝ × Option ℝ) ≠ (some 1, some 2) ∧
    ((some 3, some 2) : Option ℝ × Option ℝ) ≠ (some 3, some 4) := by
  refine ⟨rfl, rfl, rfl, rfl, ?_, ?_⟩ <;> simp

/-- C10: the readiness gate performs a presence check, not a truthiness
check, on the velocity inputs: with the enable message present and the
three cached velocities present but all equal to 0.0 the gate is still
active, the motion controller is invoked (here with all-zero inputs and
fallback CTE 0) and actuation is published; whereas the literal absence
of any of the three velocity fields, or of the enable message,
deactivates the gate. -/
theorem gate_presence_not_truthiness
    (control : ℝ → ℝ → ℝ → ℝ → ℝ × ℝ × ℝ) (s : DBWState) (m : BoolMsg)
    (hd : s.dbw_enabled = some m) (hc : s.current_velocity = some 0)
    (hl : s.linear_velocity = some 0) (ha : s.angular_velocity = some 0)
    (hp : s.current_position = none) :
    (gate s = true ∧
      tick control s = Except.ok { ctePub := none,
                                   commands := some (publishTriple (control 0 0 0 0)),
                                   slept := true }) ∧
    (∀ s' : DBWState,
      s'.current_velocity = none ∨ s'.linear_velocity = none ∨
          s'.angular_velocity = none ∨ s'.dbw_enabled = none →
      gate s' = false ∧
        tick control s'
          = Except.ok { ctePub := none, commands := none, slept := false }) := by
  constructor
  · exact ⟨by simp [gate, pyTruthy, hd, hc, hl, ha],
      by simp [tick, hd, hc, hl, ha, hp]⟩
  · intro s' h
    cases hdb : s'.dbw_enabled <;> cases hcv : s'.current_velocity <;>
      cases hlv : s'.linear_velocity <;> cases hav : s'.angular_velocity <;>
      rcases h with h | h | h | h <;>
      simp_all [tick, gate, pyTruthy]

/-- Witness for the C10 theorem: concrete all-zero velocity inputs with
the enable message present still produce an actuation publication. -/
theorem gate_presence_not_truthiness_witness :
    gate { current_velocity := some 0, current_ang_velocity := none,
           dbw_enabled := some { data := true }, linear_velocity := some 0,
           angular_velocity := some 0, current_position := none,
           waypoints := none } = true ∧
    tick (fun _ _ _ _ => (0, 0, 0))
        { current_velocity := some 0, current_ang_velocity := none,
          dbw_enabled := some { data := true }, linear_velocity := some 0,
          angular_velocity := some 0, current_position := none,
          waypoints := none }
      = Except.ok { ctePub := none,
                    commands := some (publishTriple (0, 0, 0)),
                    slept := true } :=
  (gate_presence_not_truthiness (fun _ _ _ _ => (0, 0, 0))
    { current_velocity := some 0, current_ang_velocity := none,
      dbw_enabled := some { data := true }, linear_velocity := some 0,
      angular_velocity := some 0, current_position := none,
      waypoints := none }
    { data := true } rfl rfl rfl rfl rfl).1

/-- C7: on an active tick the diagnostic CTE value is published exactly
when both the current pose and the path are present: when either is
absent no diagnostic is emitted, the controller receives the silent
fallback CTE 0 and the tick completes without error; when both are
present (and the path is long enough for the computation to return) the
computed CTE is published; and any completed tick that published a
diagnostic had both inputs present. -/
theorem cte_diag_iff_pose_path_present
    (control : ℝ → ℝ → ℝ → ℝ → ℝ × ℝ × ℝ) (s : DBWState) (m : BoolMsg)
    (cv lv av : ℝ)
    (hd : s.dbw_enabled = some m) (hc : s.current_velocity = some cv)
    (hl : s.linear_velocity = some lv) (ha : s.angular_velocity = some av) :
    ((s.current_position = none ∨ s.waypoints = none) →
      tick control s
        = Except.ok { ctePub := none,
                      commands := some (publishTriple (control cv lv av 0)),
                      slept := true }) ∧
    (∀ pos ws, s.current_position = some pos → s.waypoints = some ws →
      LOOKAHEAD < ws.length →
      tick control s
        = Except.ok { ctePub := some (calculate_cte ws pos),
                      commands := some (publishTriple
                        (control cv lv av (calculate_cte ws pos))),
                      slept := true }) ∧
    (∀ eff, tick control s = Except.ok eff → eff.ctePub.isSome = true →
      s.current_position.isSome = true ∧ s.waypoints.isSome = true) := by
  refine ⟨?_, ?_, ?_⟩
  · rintro (hcp | hws)
    · simp [tick, hd, hc, hl, ha, hcp]
    · cases hcp : s.current_position <;> simp [tick, hd, hc, hl, ha, hcp, hws]
  · intro pos ws hcp hws hlen
    simp [tick, hd, hc, hl, ha, hcp, hws, calcCTE?, hlen]
  · intro eff heff hsome
    cases hcp : s.current_position with
    | some pos =>
      cases hws : s.waypoints with
      | some ws => exact ⟨by simp [hcp], by simp [hws]⟩
      | none =>
        obtain ⟨cp, cmds, sl⟩ := eff
        simp [tick, hd, hc, hl, ha, hcp, hws] at heff
        rw [← heff.1] at hsome
        simp at hsome
    | none =>
      obtain ⟨cp, cmds, sl⟩ := eff
      simp [tick, hd, hc, hl, ha, hcp] at heff
      rw [← heff.1] at hsome
      simp at hsome

/-- Witness for the C7 theorem: with the pose absent, the concrete tick
publishes no diagnostic and forwards the fallback CTE 0. -/
theorem cte_diag_iff_pose_path_present_witness :
    tick (fun _ _ _ _ => (0, 0, 0))
        { current_velocity := some 7, current_ang_velocity := none,
          dbw_enabled := some { data := true }, linear_velocity := some 3,
          angular_velocity := some 1, current_position := none,
          waypoints := some [(0, 0)] }
      = Except.ok { ctePub := none,
                    commands := some (publishTriple (0, 0, 0)),
                    slept := true } :=
  (cte_diag_iff_pose_path_present (fun _ _ _ _ => (0, 0, 0))
    { current_velocity := some 7, current_ang_velocity := none,
      dbw_enabled := some { data := true }, linear_velocity := some 3,
      angular_velocity := some 1, current_position := none,
      waypoints := some [(0, 0)] }
    { data := true } 7 3 1 rfl rfl rfl rfl).1 (Or.inl rfl)

/-- C8: every publication of an active tick forwards the controller
result `(throttle, brake, steering)` as exactly the three commands of
one `CmdTriple`, emitted together once in that tick: a throttle command
with enable true and percentage command type carrying the throttle
value, a steering command with enable true carrying the steering angle,
and a brake command with enable true and torque command type carrying
the brake value. -/
theorem publish_forwards_controller_triple
    (control : ℝ → ℝ → ℝ → ℝ → ℝ × ℝ × ℝ) (s : DBWState) (m : BoolMsg)
    (cv lv av : ℝ)
    (hd : s.dbw_enabled = some m) (hc : s.current_velocity = some cv)
    (hl : s.linear_velocity = some lv) (ha : s.angular_velocity = some av) :
    ∀ eff, tick control s = Except.ok eff →
      ∃ cte, eff.commands = some (publishTriple (control cv lv av cte)) ∧
        publishTriple (control cv lv av cte) =
          { throttle := { enable := true,
                          pedal_cmd_type := ThrottleCmdType.CMD_PERCENT,
                          pedal_cmd := (control cv lv av cte).1 },
            steering := { enable := true,
                          steering_wheel_angle_cmd := (control cv lv av cte).2.2 },
            brake := { enable := true,
                       pedal_cmd_type := BrakeCmdType.CMD_TORQUE,
                       pedal_cmd := (control cv lv av cte).2.1 } } := by
  intro eff heff
  cases hcp : s.current_position with
  | none =>
    refine ⟨0, ?_, rfl⟩
    simp [tick, hd, hc, hl, ha, hcp] at heff
    simp [← heff]
  | some pos =>
    cases hws : s.waypoints with
    | none =>
      refine ⟨0, ?_, rfl⟩
      simp [tick, hd, hc, hl, ha, hcp, hws] at heff
      simp [← heff]
    | some ws =>
      cases hres : calcCTE? ws pos with
      | error e => simp [tick, hd, hc, hl, ha, hcp, hws, hres] at heff
      | ok cte =>
        refine ⟨cte, ?_, rfl⟩
        simp [tick, hd, hc, hl, ha, hcp, hws, hres] at heff
        simp [← heff]

/-- Witness for the C8 theorem at a concrete completed tick. -/
theorem publish_forwards_controller_triple_witness :
    ∃ _cte : ℝ,
      some (publishTriple ((1:ℝ), (0:ℝ), (0:ℝ)))
        = some (publishTriple ((1:ℝ), (0:ℝ), (0:ℝ))) ∧
      publishTriple ((1:ℝ), (0:ℝ), (0:ℝ)) =
        { throttle := { enable := true,
                        pedal_cmd_type := ThrottleCmdType.CMD_PERCENT,
                        pedal_cmd := 1 },
          steering := { enable := true, steering_wheel_angle_cmd := 0 },
          brake := { enable := true,
                     pedal_cmd_type := BrakeCmdType.CMD_TORQUE,
                     pedal_cmd := 0 } } :=
  publish_forwards_controller_triple (fun _ _ _ _ => (1, 0, 0))
    { current_velocity := some 7, current_ang_velocity := none,
      dbw_enabled := some { data := true }, linear_velocity := some 3,
      angular_velocity := some 1, current_position := none,
      waypoints := none }
    { data := true } 7 3 1 rfl rfl rfl rfl
    { ctePub := none, commands := some (publishTriple (1, 0, 0)),
      slept := true } rfl

/-- Rotating by minus an angle is exactly one row of the source's
matrix product `np.dot positions rotation`. -/
theorem rotateBy_neg_eq_rotApply (a : ℝ) :
    rotateBy (-a) = rotApply (Real.cos a) (Real.sin a) := by
  funext q
  simp only [rotateBy, rotApply, Real.cos_neg, Real.sin_neg, Prod.mk.injEq]
  exact ⟨by ring, trivial⟩

/-- C4: for every pose and every path with at least 11 points,
`calculate_cte` follows exactly the step sequence of the specification:
translate so point 0 is the origin, heading from atan2 at index 10,
rotate everything by minus the heading, least-squares degree-2 fit,
same transform on the pose, and the difference of the transformed pose
y and the polynomial value at the transformed pose x. -/
theorem calculate_cte_follows_spec_steps
    (path : List (ℝ × ℝ)) (pose : ℝ × ℝ) (_hlen : 11 ≤ path.length) :
    calculate_cte path pose = cte_spec path pose := by
  unfold calculate_cte cte_spec
  simp only [rotateBy_neg_eq_rotApply]

/-- Witness for the C4 theorem on a concrete 11-point path. -/
theorem calculate_cte_follows_spec_steps_witness :
    calculate_cte
        [(0, 0), (1, 0), (2, 0), (3, 0), (4, 0), (5, 0), (6, 0), (7, 0),
         (8, 0), (9, 0), (10, 0)] (5, 2)
      = cte_spec
        [(0, 0), (1, 0), (2, 0), (3, 0), (4, 0), (5, 0), (6, 0), (7, 0),
         (8, 0), (9, 0), (10, 0)] (5, 2) :=
  calculate_cte_follows_spec_steps
    [(0, 0), (1, 0), (2, 0), (3, 0), (4, 0), (5, 0), (6, 0), (7, 0),
     (8, 0), (9, 0), (10, 0)] (5, 2) (by decide)

/-- The modelled atan2 vanishes on the nonnegative x axis, including at
the origin (numpy convention). -/
theorem atan2_zero_of_nonneg (x : ℝ) (hx : 0 ≤ x) : atan2 0 x = 0 := by
  unfold atan2
  have hmk : (⟨x, 0⟩ : ℂ) = (x : ℂ) := by
    apply Complex.ext <;> simp
  rw [hmk]
  exact Complex.arg_ofReal_of_nonneg hx

/-- Rotating by the matrix of the angle 0 is the identity. -/
theorem rotApply_one_zero : rotApply 1 0 = fun q : ℝ × ℝ => q := by
  funext q
  simp [rotApply]

/-- A zipped sum vanishes when every right factor vanishes. -/
theorem sum_zipWith_eq_zero (g : ℝ → ℝ → ℝ) (hg : ∀ x, g x 0 = 0)
    (xs ys : List ℝ) (hy : ∀ y ∈ ys, y = 0) :
    (List.zipWith g xs ys).sum = 0 := by
  induction xs generalizing ys with
  | nil => simp
  | cons x xs ih =>
    cases ys with
    | nil => simp
    | cons y ys =>
      have hy0 : y = 0 := hy y (List.mem_cons_self y ys)
      have hys : ∀ z ∈ ys, z = 0 := fun z hz => hy z (List.mem_cons_of_mem y hz)
      simp [hy0, hg, ih ys hys]

/-- A least-squares fit to identically zero ordinates is the zero
polynomial: all three moment right-hand sides vanish, so all three
Cramer numerators vanish. -/
theorem polyfit2_zero (xs ys : List ℝ) (hy : ∀ y ∈ ys, y = 0) :
    polyfit2 xs ys = (0, 0, 0) := by
  have h0 : ys.sum = 0 := List.sum_eq_zero hy
  have h1 : (List.zipWith (fun x y => x * y) xs ys).sum = 0 :=
    sum_zipWith_eq_zero _ (fun x => by ring) xs ys hy
  have h2 : (List.zipWith (fun x y => x ^ 2 * y) xs ys).sum = 0 :=
    sum_zipWith_eq_zero _ (fun x => by ring) xs ys hy
  unfold polyfit2
  rw [h0, h1, h2]
  simp only [det3, Prod.mk.injEq]
  refine ⟨?_, ?_, ?_⟩ <;> rw [div_eq_zero_iff] <;> left <;> ring

/-- On a path lying on the x axis, with first point at the origin and a
lookahead point of nonnegative abscissa, the whole frame construction
is the identity and the fit is the zero polynomial, so the CTE is just
the pose ordinate. -/
theorem calculate_cte_flat (ws : List (ℝ × ℝ)) (pose : ℝ × ℝ)
    (h0 : ws.headI = (0, 0))
    (hy : ∀ p ∈ ws, p.2 = 0)
    (hx : 0 ≤ (ws.getD LOOKAHEAD (0, 0)).1) :
    calculate_cte ws pose = pose.2 := by
  have hmap : (ws.map fun p => (p.1 - ws.headI.1, p.2 - ws.headI.2)) = ws := by
    rw [h0]
    simp
  have hlook2 : (ws.getD LOOKAHEAD (0, 0)).2 = 0 := by
    rcases lt_or_le LOOKAHEAD ws.length with h | h
    · rw [List.getD_eq_getElem ws (0, 0) h]
      exact hy _ (List.getElem_mem h)
    · rw [List.getD_eq_default ws (0, 0) h]
  have harg : atan2 (ws.getD LOOKAHEAD (0, 0)).2 (ws.getD LOOKAHEAD (0, 0)).1
      = 0 := by
    rw [hlook2]
    exact atan2_zero_of_nonneg _ hx
  have hys : ∀ y ∈ ws.map Prod.snd, y = 0 := by
    intro y hmem
    rcases List.mem_map.mp hmem with ⟨p, hp, rfl⟩
    exact hy p hp
  unfold calculate_cte
  simp only [hmap, harg, Real.cos_zero, Real.sin_zero, neg_zero, rotApply_one_zero,
    List.map_id_fun, id_eq]
  rw [show (ws.map fun q : ℝ × ℝ => q) = ws from by simp]
  rw [polyfit2_zero _ _ hys]
  simp [polyval, rotApply, h0]

/-- C6: on the straight 21-point path (0,0), (1,0), ..., (20,0) the CTE
of the pose (5, 2) is exactly 2 and the CTE of the pose (5, -2) is
exactly -2 (the approximate values of the specification are these exact
values, floating-point noise aside). -/
theorem cte_straight_path_example :
    calculate_cte
        [(0, 0), (1, 0), (2, 0), (3, 0), (4, 0), (5, 0), (6, 0), (7, 0), (8, 0),
         (9, 0), (10, 0), (11, 0), (12, 0), (13, 0), (14, 0), (15, 0), (16, 0),
         (17, 0), (18, 0), (19, 0), (20, 0)] (5, 2) = 2 ∧
    calculate_cte
        [(0, 0), (1, 0), (2, 0), (3, 0), (4, 0), (5, 0), (6, 0), (7, 0), (8, 0),
         (9, 0), (10, 0), (11, 0), (12, 0), (13, 0), (14, 0), (15, 0), (16, 0),
         (17, 0), (18, 0), (19, 0), (20, 0)] (5, -2) = -2 := by
  constructor <;>
    rw [calculate_cte_flat _ _ (by rfl)
      (by intro p hp; fin_cases hp <;> rfl)
      (by norm_num [List.getD, LOOKAHEAD])]

/-- `calculate_cte` factors through `cteCore` after translating by the
first waypoint. -/
theorem calculate_cte_eq_core (ws : List (ℝ × ℝ)) (pose : ℝ × ℝ) :
    calculate_cte ws pose
      = cteCore (ws.map fun p => (p.1 - ws.headI.1, p.2 - ws.headI.2))
          (pose.1 - ws.headI.1, pose.2 - ws.headI.2) := rfl

/-- Head of a mapped nonempty list. -/
theorem headI_map (f : ℝ × ℝ → ℝ × ℝ) (l : List (ℝ × ℝ)) (h : l ≠ []) :
    (l.map f).headI = f l.headI := by
  cases l with
  | nil => exact absurd rfl h
  | cons x xs => rfl

/-- `getD` of a mapped list at an index in range. -/
theorem getD_map_lt (f : ℝ × ℝ → ℝ × ℝ) (l : List (ℝ × ℝ)) (n : ℕ)
    (d d' : ℝ × ℝ) (h : n < l.length) :
    (l.map f).getD n d = f (l.getD n d') := by
  have h2 : n < (l.map f).length := by simpa using h
  rw [List.getD_eq_getElem _ _ h2, List.getD_eq_getElem _ _ h, List.getElem_map]

/-- The frame rotation computed from a rotated lookahead, applied after
that same rotation of the input, is the frame rotation computed from
the original lookahead: the common rotation cancels exactly, provided
the lookahead is away from the origin. -/
theorem rot_align (a b : ℝ) (u q : ℝ × ℝ) (hab : a ^ 2 + b ^ 2 = 1)
    (hu : u ≠ (0, 0)) :
    rotApply (Real.cos (atan2 (linRot a b u).2 (linRot a b u).1))
        (Real.sin (atan2 (linRot a b u).2 (linRot a b u).1)) (linRot a b q)
      = rotApply (Real.cos (atan2 u.2 u.1)) (Real.sin (atan2 u.2 u.1)) q := by
  have hz0 : (⟨u.1, u.2⟩ : ℂ) ≠ 0 := by
    intro hcon
    apply hu
    have h1 : u.1 = 0 := by simpa using congrArg Complex.re hcon
    have h2 : u.2 = 0 := by simpa using congrArg Complex.im hcon
    rw [Prod.ext_iff]
    exact ⟨h1, h2⟩
  have hw0 : (⟨(linRot a b u).1, (linRot a b u).2⟩ : ℂ) ≠ 0 := by
    intro hcon
    have h1 : a * u.1 - b * u.2 = 0 := by
      simpa [linRot] using congrArg Complex.re hcon
    have h2 : b * u.1 + a * u.2 = 0 := by
      simpa [linRot] using congrArg Complex.im hcon
    apply hu
    rw [Prod.ext_iff]
    constructor
    · show u.1 = 0
      linear_combination a * h1 + b * h2 - u.1 * hab
    · show u.2 = 0
      linear_combination (-b) * h1 + a * h2 - u.2 * hab
  have habs : Complex.abs ⟨(linRot a b u).1, (linRot a b u).2⟩
      = Complex.abs ⟨u.1, u.2⟩ := by
    rw [Complex.abs_apply, Complex.abs_apply]
    congr 1
    simp only [Complex.normSq_mk, linRot]
    linear_combination (u.1 * u.1 + u.2 * u.2) * hab
  have hcosw : Real.cos (atan2 (linRot a b u).2 (linRot a b u).1)
      = (a * u.1 - b * u.2) / Complex.abs (⟨u.1, u.2⟩ : ℂ) := by
    have h := Complex.cos_arg hw0
    rw [habs] at h
    exact h
  have hsinw : Real.sin (atan2 (linRot a b u).2 (linRot a b u).1)
      = (b * u.1 + a * u.2) / Complex.abs (⟨u.1, u.2⟩ : ℂ) := by
    have h := Complex.sin_arg (⟨(linRot a b u).1, (linRot a b u).2⟩ : ℂ)
    rw [habs] at h
    exact h
  have hcosz : Real.cos (atan2 u.2 u.1)
      = u.1 / Complex.abs (⟨u.1, u.2⟩ : ℂ) := Complex.cos_arg hz0
  have hsinz : Real.sin (atan2 u.2 u.1)
      = u.2 / Complex.abs (⟨u.1, u.2⟩ : ℂ) := Complex.sin_arg _
  rw [hcosw, hsinw, hcosz, hsinz]
  simp only [rotApply, linRot, Prod.mk.injEq]
  constructor
  · linear_combination
      ((q.1 * u.1 + q.2 * u.2) / Complex.abs (⟨u.1, u.2⟩ : ℂ)) * hab
  · linear_combination
      ((q.2 * u.1 - q.1 * u.2) / Complex.abs (⟨u.1, u.2⟩ : ℂ)) * hab

/-- `cteCore` is invariant under a common rotation of the translated
positions and the translated pose, when the lookahead entry is away
from the origin. -/
theorem cteCore_linRot (positions : List (ℝ × ℝ)) (tp : ℝ × ℝ) (a b : ℝ)
    (hab : a ^ 2 + b ^ 2 = 1)
    (hu : positions.getD LOOKAHEAD (0, 0) ≠ (0, 0)) :
    cteCore (positions.map (linRot a b)) (linRot a b tp) = cteCore positions tp := by
  have hlen : LOOKAHEAD < positions.length := by
    by_contra hcon
    exact hu (List.getD_eq_default positions (0, 0) (Nat.le_of_not_lt hcon))
  have hgetD : (positions.map (linRot a b)).getD LOOKAHEAD (0, 0)
      = linRot a b (positions.getD LOOKAHEAD (0, 0)) :=
    getD_map_lt _ _ _ _ (0, 0) hlen
  have hrot : List.map
      (rotApply
        (Real.cos (atan2 (linRot a b (positions.getD LOOKAHEAD (0, 0))).2
          (linRot a b (positions.getD LOOKAHEAD (0, 0))).1))
        (Real.sin (atan2 (linRot a b (positions.getD LOOKAHEAD (0, 0))).2
          (linRot a b (positions.getD LOOKAHEAD (0, 0))).1)))
      (List.map (linRot a b) positions)
      = List.map
        (rotApply
          (Real.cos (atan2 (positions.getD LOOKAHEAD (0, 0)).2
            (positions.getD LOOKAHEAD (0, 0)).1))
          (Real.sin (atan2 (positions.getD LOOKAHEAD (0, 0)).2
            (positions.getD LOOKAHEAD (0, 0)).1)))
        positions := by
    rw [List.map_map]
    exact List.map_congr_left
      (fun p _ => rot_align a b (positions.getD LOOKAHEAD (0, 0)) p hab hu)
  simp only [cteCore]
  rw [hgetD, hrot, rot_align a b (positions.getD LOOKAHEAD (0, 0)) tp hab hu]

/-- C5 counterexample: the claimed invariance under every rigid
transform fails when the lookahead point coincides with the first path
point.  The path below revisits its start at index 10, so the frame
rotation degenerates to the identity for both the original input and
the input rotated by half a turn, and the two CTE values are 2 and -2
respectively. -/
theorem cte_not_rigid_invariant_at_degenerate_lookahead :
    (-1 : ℝ) ^ 2 + (0 : ℝ) ^ 2 = 1 ∧
    calculate_cte
        ([(0, 0), (1, 0), (2, 0), (3, 0), (4, 0), (5, 0), (6, 0), (7, 0),
          (8, 0), (9, 0), (0, 0)].map (rigidMap (-1) 0 0 0))
        (rigidMap (-1) 0 0 0 (5, 2))
      ≠ calculate_cte
        [(0, 0), (1, 0), (2, 0), (3, 0), (4, 0), (5, 0), (6, 0), (7, 0),
         (8, 0), (9, 0), (0, 0)] (5, 2) := by
  refine ⟨by norm_num, ?_⟩
  have hflat1 : calculate_cte
      ([(0, 0), (1, 0), (2, 0), (3, 0), (4, 0), (5, 0), (6, 0), (7, 0),
        (8, 0), (9, 0), (0, 0)].map (rigidMap (-1) 0 0 0))
      (rigidMap (-1) 0 0 0 (5, 2)) = (rigidMap (-1) 0 0 0 ((5:ℝ), (2:ℝ))).2 := by
    apply calculate_cte_flat
    · norm_num [rigidMap]
    · intro p hp
      rcases List.mem_map.mp hp with ⟨q, hq, rfl⟩
      fin_cases hq <;> norm_num [rigidMap]
    · norm_num [rigidMap, List.getD, LOOKAHEAD]
  have hflat2 : calculate_cte
      [(0, 0), (1, 0), (2, 0), (3, 0), (4, 0), (5, 0), (6, 0), (7, 0),
       (8, 0), (9, 0), (0, 0)] ((5:ℝ), (2:ℝ)) = 2 := by
    rw [calculate_cte_flat _ _ (by rfl)
      (by intro p hp; fin_cases hp <;> rfl)
      (by norm_num [List.getD, LOOKAHEAD])]
  rw [hflat1, hflat2]
  norm_num [rigidMap]

/-- C5 amended: applying one and the same rigid transform (rotation
`[[a, -b], [b, a]]` with `a ^ 2 + b ^ 2 = 1`, then a translation) to
every path point and to the pose leaves the computed CTE unchanged,
provided the path has more than 10 points and its lookahead point
(index 10) differs from its first point — the nondegeneracy the
counterexample above shows is needed. -/
theorem cte_rigid_invariant
    (ws : List (ℝ × ℝ)) (pose : ℝ × ℝ) (a b t1 t2 : ℝ)
    (hab : a ^ 2 + b ^ 2 = 1)
    (hlen : LOOKAHEAD < ws.length)
    (hne : ws.getD LOOKAHEAD (0, 0) ≠ ws.headI) :
    calculate_cte (ws.map (rigidMap a b t1 t2)) (rigidMap a b t1 t2 pose)
      = calculate_cte ws pose := by
  have hnil : ws ≠ [] :=
    List.ne_nil_of_length_pos (Nat.lt_of_le_of_lt (Nat.zero_le _) hlen)
  have hhead : (ws.map (rigidMap a b t1 t2)).headI = rigidMap a b t1 t2 ws.headI :=
    headI_map _ _ hnil
  have htrans : ((ws.map (rigidMap a b t1 t2)).map fun p =>
        (p.1 - (rigidMap a b t1 t2 ws.headI).1,
         p.2 - (rigidMap a b t1 t2 ws.headI).2))
      = (ws.map fun p => (p.1 - ws.headI.1, p.2 - ws.headI.2)).map (linRot a b) := by
    rw [List.map_map, List.map_map]
    apply List.map_congr_left
    intro p _
    simp only [Function.comp, rigidMap, linRot, Prod.mk.injEq]
    constructor <;> ring
  have hpose : ((rigidMap a b t1 t2 pose).1 - (rigidMap a b t1 t2 ws.headI).1,
      (rigidMap a b t1 t2 pose).2 - (rigidMap a b t1 t2 ws.headI).2)
      = linRot a b (pose.1 - ws.headI.1, pose.2 - ws.headI.2) := by
    simp only [rigidMap, linRot, Prod.mk.injEq]
    constructor <;> ring
  have hu : (ws.map fun p => (p.1 - ws.headI.1, p.2 - ws.headI.2)).getD
      LOOKAHEAD (0, 0) ≠ (0, 0) := by
    rw [getD_map_lt _ _ _ _ (0, 0) hlen]
    intro hcon
    apply hne
    simp only [Prod.ext_iff] at hcon
    rw [Prod.ext_iff]
    obtain ⟨hc1, hc2⟩ := hcon
    constructor
    · linarith
    · linarith
  rw [calculate_cte_eq_core, calculate_cte_eq_core, hhead, htrans, hpose,
    cteCore_linRot _ _ a b hab hu]

/-- Witness for the amended C5 theorem: a quarter-turn rotation with a
translation applied to a concrete nondegenerate 11-point path and pose. -/
theorem cte_rigid_invariant_witness :
    calculate_cte
        ([(0, 0), (1, 0), (2, 0), (3, 0), (4, 0), (5, 0), (6, 0), (7, 0),
          (8, 0), (9, 0), (10, 0)].map (rigidMap 0 1 3 4))
        (rigidMap 0 1 3 4 (5, 2))
      = calculate_cte
        [(0, 0), (1, 0), (2, 0), (3, 0), (4, 0), (5, 0), (6, 0), (7, 0),
         (8, 0), (9, 0), (10, 0)] (5, 2) :=
  cte_rigid_invariant
    [(0, 0), (1, 0), (2, 0), (3, 0), (4, 0), (5, 0), (6, 0), (7, 0),
     (8, 0), (9, 0), (10, 0)] (5, 2) 0 1 3 4
    (by norm_num)
    (by decide)
    (by norm_num [List.getD, LOOKAHEAD, Prod.ext_iff])

/-- Rule of Cramer for the symmetric 3x3 system solved by `polyfit2`:
when the determinant is nonzero the quotient triple satisfies the three
equations. -/
theorem cramer3 (S4 S3 S2 S1 S0 T2 T1 T0 : ℝ)
    (hD : det3 S4 S3 S2 S3 S2 S1 S2 S1 S0 ≠ 0) :
    S4 * (det3 T2 S3 S2 T1 S2 S1 T0 S1 S0 / det3 S4 S3 S2 S3 S2 S1 S2 S1 S0)
        + S3 * (det3 S4 T2 S2 S3 T1 S1 S2 T0 S0 / det3 S4 S3 S2 S3 S2 S1 S2 S1 S0)
        + S2 * (det3 S4 S3 T2 S3 S2 T1 S2 S1 T0 / det3 S4 S3 S2 S3 S2 S1 S2 S1 S0)
      = T2 ∧
    S3 * (det3 T2 S3 S2 T1 S2 S1 T0 S1 S0 / det3 S4 S3 S2 S3 S2 S1 S2 S1 S0)
        + S2 * (det3 S4 T2 S2 S3 T1 S1 S2 T0 S0 / det3 S4 S3 S2 S3 S2 S1 S2 S1 S0)
        + S1 * (det3 S4 S3 T2 S3 S2 T1 S2 S1 T0 / det3 S4 S3 S2 S3 S2 S1 S2 S1 S0)
      = T1 ∧
    S2 * (det3 T2 S3 S2 T1 S2 S1 T0 S1 S0 / det3 S4 S3 S2 S3 S2 S1 S2 S1 S0)
        + S1 * (det3 S4 T2 S2 S3 T1 S1 S2 T0 S0 / det3 S4 S3 S2 S3 S2 S1 S2 S1 S0)
        + S0 * (det3 S4 S3 T2 S3 S2 T1 S2 S1 T0 / det3 S4 S3 S2 S3 S2 S1 S2 S1 S0)
      = T0 := by
  refine ⟨?_, ?_, ?_⟩ <;>
    · field_simp
      unfold det3
      ring

/-- The `polyfit2` coefficients satisfy the three normal equations of
the least-squares degree-2 fit whenever the normal matrix is
nonsingular, which is what ties the Cramer model to `np.polyfit`. -/
theorem polyfit2_normal_equations (xs ys : List ℝ)
    (hD : det3 ((xs.map fun x => x ^ 4).sum) ((xs.map fun x => x ^ 3).sum)
        ((xs.map fun x => x ^ 2).sum) ((xs.map fun x => x ^ 3).sum)
        ((xs.map fun x => x ^ 2).sum) xs.sum ((xs.map fun x => x ^ 2).sum)
        xs.sum (xs.length : ℝ) ≠ 0) :
    ((xs.map fun x => x ^ 4).sum) * (polyfit2 xs ys).1
        + ((xs.map fun x => x ^ 3).sum) * (polyfit2 xs ys).2.1
        + ((xs.map fun x => x ^ 2).sum) * (polyfit2 xs ys).2.2
      = (List.zipWith (fun x y => x ^ 2 * y) xs ys).sum ∧
    ((xs.map fun x => x ^ 3).sum) * (polyfit2 xs ys).1
        + ((xs.map fun x => x ^ 2).sum) * (polyfit2 xs ys).2.1
        + xs.sum * (polyfit2 xs ys).2.2
      = (List.zipWith (fun x y => x * y) xs ys).sum ∧
    ((xs.map fun x => x ^ 2).sum) * (polyfit2 xs ys).1
        + xs.sum * (polyfit2 xs ys).2.1
        + (xs.length : ℝ) * (polyfit2 xs ys).2.2
      = ys.sum :=
  cramer3 _ _ _ _ _ _ _ _ hD

/-- Algebraic decomposition of the sum of squared residuals of one
coefficient triple around another: residual square, twice the cross
moments, and the square of the coefficient difference polynomial. -/
theorem sse_decomp (c2 c1 c0 d2 d1 d0 : ℝ) (xs ys : List ℝ) :
    (List.zipWith (fun x y => (y - (c2 * x ^ 2 + c1 * x + c0)) ^ 2) xs ys).sum
      = (List.zipWith (fun x y => (y - (d2 * x ^ 2 + d1 * x + d0)) ^ 2) xs ys).sum
        + 2 * ((d2 - c2) *
            (List.zipWith (fun x y => x ^ 2 * (y - (d2 * x ^ 2 + d1 * x + d0))) xs ys).sum
          + (d1 - c1) *
            (List.zipWith (fun x y => x * (y - (d2 * x ^ 2 + d1 * x + d0))) xs ys).sum
          + (d0 - c0) *
            (List.zipWith (fun x y => y - (d2 * x ^ 2 + d1 * x + d0)) xs ys).sum)
        + (List.zipWith (fun x _ =>
            ((d2 - c2) * x ^ 2 + (d1 - c1) * x + (d0 - c0)) ^ 2) xs ys).sum := by
  induction xs generalizing ys with
  | nil => simp
  | cons x xs ih =>
    cases ys with
    | nil => simp
    | cons y ys =>
      simp only [List.zipWith_cons_cons, List.sum_cons]
      rw [ih ys]
      ring

/-- A zipped sum of a residual moment splits into the data moment minus
the fitted-polynomial moments, when the two lists have equal length. -/
theorem moment_split (d2 d1 d0 : ℝ) (k : ℕ) (xs ys : List ℝ)
    (hlen : xs.length = ys.length) :
    (List.zipWith (fun x y => x ^ k * (y - (d2 * x ^ 2 + d1 * x + d0))) xs ys).sum
      = (List.zipWith (fun x y => x ^ k * y) xs ys).sum
        - (d2 * (xs.map fun x => x ^ (k + 2)).sum
          + d1 * (xs.map fun x => x ^ (k + 1)).sum
          + d0 * (xs.map fun x => x ^ k).sum) := by
  revert hlen
  induction xs generalizing ys with
  | nil =>
    intro hlen
    simp
  | cons x xs ih =>
    intro hlen
    cases ys with
    | nil => simp at hlen
    | cons y ys =>
      have hlen2 : xs.length = ys.length := by simpa using hlen
      simp only [List.zipWith_cons_cons, List.sum_cons, List.map_cons]
      rw [ih ys hlen2]
      ring

/-- Sum of the zeroth powers is the length. -/
theorem sum_map_pow_zero (xs : List ℝ) :
    (xs.map fun x => x ^ 0).sum = (xs.length : ℝ) := by
  induction xs with
  | nil => simp
  | cons x xs ih =>
    simp only [List.map_cons, List.sum_cons, List.length_cons]
    rw [ih, pow_zero]
    push_cast
    ring

/-- Sum of the first powers is the plain sum. -/
theorem sum_map_pow_one (xs : List ℝ) :
    (xs.map fun x => x ^ 1).sum = xs.sum := by
  simp [pow_one]

/-- A zipped sum that ignores the left list is the right sum, when the
two lists have equal length. -/
theorem sum_zipWith_right (xs ys : List ℝ) (hlen : xs.length = ys.length) :
    (List.zipWith (fun _ y => y) xs ys).sum = ys.sum := by
  revert hlen
  induction xs generalizing ys with
  | nil =>
    intro hlen
    cases ys with
    | nil => simp
    | cons y ys => simp at hlen
  | cons x xs ih =>
    intro hlen
    cases ys with
    | nil => simp at hlen
    | cons y ys =>
      have hlen2 : xs.length = ys.length := by simpa using hlen
      simp only [List.zipWith_cons_cons, List.sum_cons]
      rw [ih ys hlen2]

/-- A zipped sum of squares is nonnegative. -/
theorem sum_zipWith_sq_nonneg (f : ℝ → ℝ → ℝ) (xs ys : List ℝ) :
    0 ≤ (List.zipWith (fun x y => f x y ^ 2) xs ys).sum := by
  induction xs generalizing ys with
  | nil => simp
  | cons x xs ih =>
    cases ys with
    | nil => simp
    | cons y ys =>
      simp only [List.zipWith_cons_cons, List.sum_cons]
      exact add_nonneg (sq_nonneg _) (ih ys)

/-- `polyfit2` really is the least-squares fit: whenever the normal
matrix is nonsingular and the two lists have equal length (as
`np.polyfit` requires), its coefficient triple minimises the sum of
squared residuals over all degree-2 coefficient triples. -/
theorem polyfit2_is_least_squares (xs ys : List ℝ)
    (hlen : xs.length = ys.length)
    (hD : det3 ((xs.map fun x => x ^ 4).sum) ((xs.map fun x => x ^ 3).sum)
        ((xs.map fun x => x ^ 2).sum) ((xs.map fun x => x ^ 3).sum)
        ((xs.map fun x => x ^ 2).sum) xs.sum ((xs.map fun x => x ^ 2).sum)
        xs.sum (xs.length : ℝ) ≠ 0)
    (c : ℝ × ℝ × ℝ) :
    sse (polyfit2 xs ys) xs ys ≤ sse c xs ys := by
  obtain ⟨c2, c1, c0⟩ := c
  obtain ⟨h2, h1, h0⟩ := polyfit2_normal_equations xs ys hD
  have hm2 : (List.zipWith (fun x y => x ^ 2 *
      (y - ((polyfit2 xs ys).1 * x ^ 2 + (polyfit2 xs ys).2.1 * x
        + (polyfit2 xs ys).2.2))) xs ys).sum = 0 := by
    rw [moment_split _ _ _ 2 xs ys hlen]
    norm_num
    linarith
  have hm1 : (List.zipWith (fun x y => x *
      (y - ((polyfit2 xs ys).1 * x ^ 2 + (polyfit2 xs ys).2.1 * x
        + (polyfit2 xs ys).2.2))) xs ys).sum = 0 := by
    have h := moment_split (polyfit2 xs ys).1 (polyfit2 xs ys).2.1
      (polyfit2 xs ys).2.2 1 xs ys hlen
    norm_num [pow_one, sum_map_pow_one] at h
    rw [h]
    linarith
  have hm0 : (List.zipWith (fun x y =>
      y - ((polyfit2 xs ys).1 * x ^ 2 + (polyfit2 xs ys).2.1 * x
        + (polyfit2 xs ys).2.2)) xs ys).sum = 0 := by
    have h := moment_split (polyfit2 xs ys).1 (polyfit2 xs ys).2.1
      (polyfit2 xs ys).2.2 0 xs ys hlen
    norm_num [pow_one, pow_zero, sum_map_pow_one, sum_map_pow_zero, one_mul] at h
    rw [sum_zipWith_right xs ys hlen] at h
    rw [h]
    linarith
  have hdec := sse_decomp c2 c1 c0 (polyfit2 xs ys).1 (polyfit2 xs ys).2.1
    (polyfit2 xs ys).2.2 xs ys
  have hsse_c : sse (c2, c1, c0) xs ys
      = (List.zipWith (fun x y => (y - (c2 * x ^ 2 + c1 * x + c0)) ^ 2) xs ys).sum := by
    simp [sse, polyval]
  have hsse_d : sse (polyfit2 xs ys) xs ys
      = (List.zipWith (fun x y => (y - ((polyfit2 xs ys).1 * x ^ 2
          + (polyfit2 xs ys).2.1 * x + (polyfit2 xs ys).2.2)) ^ 2) xs ys).sum := by
    simp [sse, polyval]
  rw [hsse_c, hsse_d, hdec, hm2, hm1, hm0]
  have hnn := sum_zipWith_sq_nonneg
    (fun x _ => ((polyfit2 xs ys).1 - c2) * x ^ 2
      + ((polyfit2 xs ys).2.1 - c1) * x + ((polyfit2 xs ys).2.2 - c0)) xs ys
  linarith

end DBWNode
